import Mathlib

/-
Verification of the Australian real estate agent repository.

Shallow embedding of the core logic of the repository:
  app/tools.py   (RealEstateDataProvider: price parsing, listing mapping,
                  find_property_by_address, calculate_suburb_trends)
  app/agent.py   (call_tool, should_continue, graph wiring)
  app/models.py  (Property, SuburbTrends pydantic models)

Strings are modelled as lists of character codes (List Nat); Python floats
arising from parsed prices are modelled as rationals, which is exact here
because every price the code constructs is a decimal numeral.  The remote
listings API is modelled as the function from page numbers to the list of
listing payloads that the corresponding HTTP request returns.
-/

/-- Character-code string, the model of a Python str. -/
abbrev Str := List Nat

/-- Convert a Lean string literal to its character-code model. -/
def ofStr (s : String) : Str := s.data.map Char.toNat

/-- Model of str.casefold restricted to ASCII: map A..Z (65..90) to a..z. -/
def asciiLower (c : Nat) : Nat := if 65 ≤ c ∧ c ≤ 90 then c + 32 else c

/-- Model of str.upper restricted to ASCII: map a..z (97..122) to A..Z. -/
def asciiUpper (c : Nat) : Nat := if 97 ≤ c ∧ c ≤ 122 then c - 32 else c

/-- Casefold a whole string, modelling s.casefold() on ASCII data. -/
def lowerStr (s : Str) : Str := s.map asciiLower

/-- Uppercase a whole string, modelling str(s).upper() on ASCII data. -/
def upperStr (s : Str) : Str := s.map asciiUpper

/-- Whitespace characters stripped by Python str.strip() with no argument. -/
def isWsChar (c : Nat) : Bool :=
  decide (c = 9 ∨ c = 10 ∨ c = 11 ∨ c = 12 ∨ c = 13 ∨ c = 32)

/-- Model of s.strip(): drop whitespace from both ends. -/
def trim (s : Str) : Str :=
  ((s.dropWhile isWsChar).reverse.dropWhile isWsChar).reverse

/-- Model of s.strip(chars): drop characters of the given set from both ends. -/
def stripChars (cs : List Nat) (s : Str) : Str :=
  ((s.dropWhile cs.contains).reverse.dropWhile cs.contains).reverse

/-- ASCII decimal digit test, matching the regex class backslash-d on ASCII. -/
def isDigitChar (c : Nat) : Bool := decide (48 ≤ c ∧ c ≤ 57)

/-- Numeric value of a string of decimal digit characters. -/
def digitsToNat (s : Str) : Nat := s.foldl (fun a c => a * 10 + (c - 48)) 0

/-- Model of Python float(t) on a token of shape digits [ "." digits ]. -/
def parseFloatToken (s : Str) : ℚ :=
  let ip := s.takeWhile isDigitChar
  match s.dropWhile isDigitChar with
  | 46 :: fr =>
      (digitsToNat ip : ℚ) +
        (digitsToNat (fr.takeWhile isDigitChar) : ℚ) /
          ((10 : ℚ) ^ (fr.takeWhile isDigitChar).length)
  | _ => (digitsToNat ip : ℚ)

/-- Given a string starting with a digit, the maximal greedy match of the
regex digits, optional single comma or point, digits; this is one match of
the pattern used in RealEstateDataProvider._parse_price_from_text. -/
def numTokenAt (s : Str) : Str :=
  let d1 := s.takeWhile isDigitChar
  match s.dropWhile isDigitChar with
  | c :: r =>
      if c = 44 ∨ c = 46 then d1 ++ c :: r.takeWhile isDigitChar else d1
  | [] => d1

/-- First match of the price regex in the text, as returned by
re.findall(...)[0] in _parse_price_from_text; none when the text holds no
digit. -/
def firstNumToken : Str → Option Str
  | [] => none
  | c :: r => if isDigitChar c then some (numTokenAt (c :: r)) else firstNumToken r

/-- Embedding of RealEstateDataProvider._parse_price_from_text: an absent or
empty text parses to 0.0; otherwise the first regex match has its commas
removed and is read as a float; the function never fails and never returns
a negative value. -/
def parsePriceFromText (t : Option Str) : ℚ :=
  match t with
  | none => 0
  | some s =>
      if s = [] then 0
      else
        match firstNumToken s with
        | none => 0
        | some tok => parseFloatToken (tok.filter (fun c => !(c == 44)))

/-- One listing payload from the remote listings API, holding the fields
_map_external_property reads.  Optional string fields distinguish an absent
key (none) from a present value, and the present value may be empty. -/
structure ExternalItem where
  displayAddress : Option Str := none
  unitNumber : Option Str := none
  streetNumber : Option Str := none
  street : Option Str := none
  suburbField : Option Str := none
  stateAbbreviation : Option Str := none
  postcode : Option Str := none
  propertyTypes : List Str := []
  displayPrice : Option Str := none
  bedrooms : Option Int := none
  bathrooms : Option Int := none
  landSize : Option ℚ := none
  yearBuilt : Option Int := none
  deriving DecidableEq

/-- Python truthiness of an optional string: false for an absent key and for
an empty string. -/
def truthyS (o : Option Str) : Bool :=
  match o with
  | none => false
  | some s => !s.isEmpty

/-- Model of sep.join(parts). -/
def joinSep (sep : Str) : List Str → Str
  | [] => []
  | [x] => x
  | x :: xs => x ++ sep ++ joinSep sep xs

/-- Display address derivation of _map_external_property: use the
pre-formatted displayAddress when truthy, else join unit/streetNumber/street
and suburb/STATE/postcode and strip commas and spaces from the ends; none
when every part is missing. -/
def displayAddressOf (item : ExternalItem) : Option Str :=
  if truthyS item.displayAddress then item.displayAddress
  else
    let parts : List Str :=
      (if truthyS item.unitNumber && truthyS item.streetNumber then
        [item.unitNumber.getD [] ++ 47 :: item.streetNumber.getD []]
      else if truthyS item.streetNumber then [item.streetNumber.getD []]
      else []) ++
      (if truthyS item.street then [item.street.getD []] else [])
    let localParts : List Str :=
      (if truthyS item.suburbField then [item.suburbField.getD []] else []) ++
      (if truthyS item.stateAbbreviation then
        [upperStr (item.stateAbbreviation.getD [])] else []) ++
      (if truthyS item.postcode then [item.postcode.getD []] else [])
    if parts ≠ [] ∨ localParts ≠ [] then
      some (stripChars [44, 32]
        (joinSep (ofStr ", ") [joinSep (ofStr " ") parts, joinSep (ofStr " ") localParts]))
    else none

/-- Canonical row produced by _map_external_property, one mapped listing. -/
structure Row where
  address : Option Str
  suburb : Option Str
  rooms : Option Int
  propType : Str
  price : ℚ
  bathroom : Int
  landsize : ℚ
  yearBuilt : Option Int
  deriving DecidableEq

/-- Embedding of RealEstateDataProvider._map_external_property. -/
def mapExternalProperty (item : ExternalItem) : Row :=
  { address := displayAddressOf item
    suburb := item.suburbField
    rooms := item.bedrooms
    propType := (item.propertyTypes.head?).getD []
    price := parsePriceFromText item.displayPrice
    bathroom := item.bathrooms.getD 0
    landsize := item.landSize.getD 0
    yearBuilt := item.yearBuilt }

/-- Embedding of the pydantic Property model of app/models.py: address,
suburb, bedrooms, property_type and price are required; bathrooms,
land_size and year_built are optional. -/
structure Property where
  address : Str
  suburb : Str
  bedrooms : Int
  property_type : Str
  price : ℚ
  bathrooms : Option Int
  land_size : Option ℚ
  year_built : Option Int
  deriving DecidableEq

/-- Embedding of RealEstateDataProvider._row_to_property.  The Python code
builds a dict whose Address, Suburb and Rooms entries are None when the row
misses them, and pydantic validation then raises, which the enclosing
try/except of the calling query turns into a None result; this is modelled
by returning none.  Bathroom and Landsize always carry a value (the mapping
defaults them to 0), Price always carries a value. -/
def rowToProperty (row : Row) : Option Property :=
  match row.address, row.suburb, row.rooms with
  | some a, some s, some r =>
      some { address := a
             suburb := s
             bedrooms := r
             property_type := row.propType
             price := row.price
             bathrooms := some row.bathroom
             land_size := some row.landsize
             year_built := row.yearBuilt }
  | _, _, _ => none

/-- Remote listings API model: the list of listing payloads that the request
for a given page number returns.  Requests are assumed to succeed; a thrown
network error is outside the data model and collapses to a None result in
the source. -/
abbrev Pages := Nat → List ExternalItem

/-- Match test of find_property_by_address for one listing: the mapped
address, stripped and casefolded, is non-empty and equals the normalized
query. -/
def matchesAddress (addrNorm : Str) (item : ExternalItem) : Bool :=
  let rowAddr := lowerStr (trim (((mapExternalProperty item).address).getD []))
  !rowAddr.isEmpty && rowAddr == addrNorm

/-- Paging loop of find_property_by_address.  The fuel argument counts the
remaining iterations of the while page <= 10 loop; the second component of
the result counts the pages actually fetched.  A page with no items stops
the loop, a matching item returns at once, a page shorter than the page
size 50 stops the loop after being scanned. -/
def findAux (pages : Pages) (addrNorm : Str) :
    Nat → Nat → Option Property × Nat
  | 0, _ => (none, 0)
  | Nat.succ fuel, page =>
      let items := pages page
      if items.isEmpty then (none, 1)
      else
        match items.find? (matchesAddress addrNorm) with
        | some item => (rowToProperty (mapExternalProperty item), 1)
        | none =>
            if items.length < 50 then (none, 1)
            else
              let next := findAux pages addrNorm fuel (page + 1)
              (next.fst, next.snd + 1)

/-- Embedding of RealEstateDataProvider.find_property_by_address: empty
query returns none at once; otherwise up to 10 pages are scanned for the
first listing whose mapped address matches the normalized query. -/
def find_property_by_address (pages : Pages) (address : Str) : Option Property :=
  if address = [] then none
  else (findAux pages (lowerStr (trim address)) 10 1).fst

/-- Number of page requests that a find_property_by_address call issues. -/
def findPagesFetched (pages : Pages) (address : Str) : Nat :=
  if address = [] then 0
  else (findAux pages (lowerStr (trim address)) 10 1).snd

/-- Match test of calculate_suburb_trends for one mapped row: the suburb
field, with a missing value read as the empty string, casefolds to the
normalized query.  The row side is not stripped. -/
def matchesSuburbRow (suburbNorm : Str) (row : Row) : Bool :=
  lowerStr (row.suburb.getD []) == suburbNorm

/-- Paging loop of calculate_suburb_trends with page size 100: accumulates
the mapped rows whose suburb matches, and counts the fetched pages. -/
def trendsAux (pages : Pages) (suburbNorm : Str) :
    Nat → Nat → List Row × Nat
  | 0, _ => ([], 0)
  | Nat.succ fuel, page =>
      let items := pages page
      if items.isEmpty then ([], 1)
      else
        let matched := (items.map mapExternalProperty).filter (matchesSuburbRow suburbNorm)
        if items.length < 100 then (matched, 1)
        else
          let next := trendsAux pages suburbNorm fuel (page + 1)
          (matched ++ next.fst, next.snd + 1)

/-- Embedding of the SuburbTrends pydantic model of app/models.py. -/
structure SuburbTrends where
  suburb : Str
  median_price : ℚ
  property_count : Nat
  average_land_size : ℚ
  deriving DecidableEq

/-- Insert into a sorted list of rationals. -/
def insertSorted (x : ℚ) : List ℚ → List ℚ
  | [] => [x]
  | y :: ys => if x ≤ y then x :: y :: ys else y :: insertSorted x ys

/-- Sort a list of rationals ascending. -/
def sortQ : List ℚ → List ℚ
  | [] => []
  | x :: xs => insertSorted x (sortQ xs)

/-- Model of pandas Series.median on a non-empty column: the middle element
of the sorted values when the count is odd, the mean of the two middle
elements when the count is even. -/
def medianQ (l : List ℚ) : ℚ :=
  let s := sortQ l
  let n := s.length
  if n % 2 = 1 then s.getD (n / 2) 0
  else (s.getD (n / 2 - 1) 0 + s.getD (n / 2) 0) / 2

/-- Model of pandas Series.mean on a column with no missing values. -/
def meanQ (l : List ℚ) : ℚ := l.sum / (l.length : ℚ)

/-- Aggregation step of calculate_suburb_trends over the accumulated rows,
lines 192 to 207 of app/tools.py.  The dropna on the Price column removes
nothing because the mapping always assigns Price a number, so the row count
and the aggregates range over all accumulated rows.  The canonical suburb
is str(first row Suburb), which is the text None for a missing value, and
the Python expression canonical_suburb or suburb falls back to the query
string when the canonical name is empty. -/
def trendsOfRows (suburb : Str) (rows : List Row) : Option SuburbTrends :=
  match rows with
  | [] => none
  | r0 :: _ =>
      let canonical :=
        match r0.suburb with
        | some s => s
        | none => ofStr "None"
      some { suburb := if canonical = [] then suburb else canonical
             median_price := medianQ (rows.map Row.price)
             property_count := rows.length
             average_land_size := meanQ (rows.map Row.landsize) }

/-- Embedding of RealEstateDataProvider.calculate_suburb_trends: empty query
returns none at once; otherwise up to 10 pages are scanned, the rows whose
suburb matches the normalized query are accumulated, and the aggregates are
computed over them, with none returned when no row matched. -/
def calculate_suburb_trends (pages : Pages) (suburb : Str) : Option SuburbTrends :=
  if suburb = [] then none
  else trendsOfRows suburb (trendsAux pages (lowerStr (trim suburb)) 10 1).fst

/-- Number of page requests that a calculate_suburb_trends call issues. -/
def trendsPagesFetched (pages : Pages) (suburb : Str) : Nat :=
  if suburb = [] then 0
  else (trendsAux pages (lowerStr (trim suburb)) 10 1).snd

/-- One requested tool call inside a model message: name, arguments and the
correlation identifier, as read by call_tool via tool_call.get. -/
structure ToolCallReq where
  name : Str
  args : List (Str × Str)
  id : Option Str
  deriving DecidableEq

/-- One turn of the conversation history carried in the tool_calls state
channel: a human message, a model message with its requested tool calls, or
a tool result correlated to a call identifier. -/
inductive Msg where
  | human (content : Str)
  | ai (content : Str) (tool_calls : List ToolCallReq)
  | tool (content : Str) (tool_call_id : Str)
  deriving DecidableEq

/-- Names of the registered tool adapters, the tools list of app/agent.py. -/
def registeredToolNames : List Str :=
  [ofStr "get_property_details", ofStr "get_suburb_trends"]

/-- Content of the synthesized error turn for an unregistered tool name:
json.dumps of a dict with the single key error.  String escaping inside the
name is elided; the names involved are plain identifiers. -/
def toolNotFoundContent (name : Str) : Str :=
  ofStr "\x7b\"error\": \"Tool not found: " ++ name ++ ofStr "\"\x7d"

/-- Embedding of call_tool of app/agent.py.  The argument runTool stands for
invoking the selected registered adapter and serializing its return value
to text, the dependency injected boundary of the loop; the registry check
itself is concrete.  The function returns the new value of the tool_calls
state channel; the AgentState TypedDict declares that channel without a
reducer, so the returned list replaces the previous one.  Note that the
unregistered branch returns a singleton list, while the registered branch
returns the whole history extended by the new tool turn. -/
def callTool (runTool : Str → List (Str × Str) → Str) (history : List Msg) : List Msg :=
  match history.getLast? with
  | none => []
  | some last =>
      match last with
      | Msg.ai _ toolCalls =>
          match toolCalls.getLast? with
          | none => []
          | some tc =>
              if registeredToolNames.contains tc.name then
                history ++ [Msg.tool (runTool tc.name tc.args) (tc.id.getD [])]
              else
                [Msg.tool (toolNotFoundContent tc.name) (tc.id.getD [])]
      | _ => []

/-- Embedding of should_continue of app/agent.py: continue exactly when the
last turn is a model message whose tool call list is non-empty. -/
def shouldContinue (history : List Msg) : Str :=
  match history.getLast? with
  | none => ofStr "end"
  | some (Msg.ai _ toolCalls) =>
      if toolCalls.isEmpty then ofStr "end" else ofStr "continue"
  | some _ => ofStr "end"

/-- Nodes of the compiled graph of app/agent.py: the model node, the tool
node, and the terminal END. -/
inductive GraphNode where
  | agent
  | action
  | terminal
  deriving DecidableEq

/-- Entry point of the graph. -/
def entryNode : GraphNode := GraphNode.agent

/-- Conditional edges out of the model node, keyed by should_continue. -/
def agentNext (history : List Msg) : GraphNode :=
  if shouldContinue history = ofStr "continue" then GraphNode.action
  else GraphNode.terminal

/-- Unconditional edge out of the tool node, back to the model node. -/
def actionNext : GraphNode := GraphNode.agent

/-- Declarative prefix of listings that the find paging loop scans: pages in
order starting at the given page number, stopping at an empty page, after a
page shorter than the page size 50, or when the fuel runs out. -/
def scannedFindItems (pages : Pages) : Nat → Nat → List ExternalItem
  | 0, _ => []
  | Nat.succ fuel, page =>
      let items := pages page
      if items.isEmpty then []
      else if items.length < 50 then items
      else items ++ scannedFindItems pages fuel (page + 1)

/-- Declarative prefix of listings that the trends paging loop scans, with
page size 100. -/
def scannedTrendsItems (pages : Pages) : Nat → Nat → List ExternalItem
  | 0, _ => []
  | Nat.succ fuel, page =>
      let items := pages page
      if items.isEmpty then []
      else if items.length < 100 then items
      else items ++ scannedTrendsItems pages fuel (page + 1)

/-- Listings fetched by a calculate_suburb_trends call: nothing for the
empty query, which returns before any request, else the scanned prefix. -/
def fetchedTrendsItems (pages : Pages) (suburb : Str) : List ExternalItem :=
  if suburb = [] then [] else scannedTrendsItems pages 10 1

/-- Mapped records among the fetched listings whose suburb matches the
normalized query, in fetch order. -/
def matchedSuburbRecords (pages : Pages) (suburb : Str) : List Row :=
  ((fetchedTrendsItems pages suburb).map mapExternalProperty).filter
    (matchesSuburbRow (lowerStr (trim suburb)))

lemma findAux_fst_eq (pages : Pages) (norm : Str) (fuel : Nat) :
    ∀ page, (findAux pages norm fuel page).fst =
      ((scannedFindItems pages fuel page).find? (matchesAddress norm)).bind
        (fun it => rowToProperty (mapExternalProperty it)) := by
  induction fuel with
  | zero => intro page; rfl
  | succ fuel ih =>
      intro page
      simp only [findAux, scannedFindItems]
      by_cases h1 : (pages page).isEmpty
      · simp [h1]
      · simp only [h1, if_false]
        cases hf : (pages page).find? (matchesAddress norm) with
        | some it =>
            by_cases h2 : (pages page).length < 50 <;>
              simp [h2, hf, List.find?_append]
        | none =>
            by_cases h2 : (pages page).length < 50
            · simp [h2, hf]
            · simp [h2, hf, List.find?_append, ih (page + 1)]

lemma trendsAux_fst_eq (pages : Pages) (norm : Str) (fuel : Nat) :
    ∀ page, (trendsAux pages norm fuel page).fst =
      ((scannedTrendsItems pages fuel page).map mapExternalProperty).filter
        (matchesSuburbRow norm) := by
  induction fuel with
  | zero => intro page; rfl
  | succ fuel ih =>
      intro page
      simp only [trendsAux, scannedTrendsItems]
      by_cases h1 : (pages page).isEmpty
      · simp [h1]
      · simp only [h1, if_false]
        by_cases h2 : (pages page).length < 100
        · simp [h2]
        · simp [h2, ih (page + 1), List.filter_append]

lemma findAux_snd_le (pages : Pages) (norm : Str) :
    ∀ fuel page, (findAux pages norm fuel page).snd ≤ fuel := by
  intro fuel
  induction fuel with
  | zero => intro page; exact Nat.le_refl 0
  | succ fuel ih =>
      intro page
      simp only [findAux]
      by_cases h1 : (pages page).isEmpty
      · simp [h1]
      · simp only [h1, if_false]
        cases hf : (pages page).find? (matchesAddress norm) with
        | some it => simp [hf]
        | none =>
            by_cases h2 : (pages page).length < 50
            · simp [h2, hf]
            · simp only [h2, hf, if_false]
              exact Nat.succ_le_succ (ih (page + 1))

lemma trendsAux_snd_le (pages : Pages) (norm : Str) :
    ∀ fuel page, (trendsAux pages norm fuel page).snd ≤ fuel := by
  intro fuel
  induction fuel with
  | zero => intro page; exact Nat.le_refl 0
  | succ fuel ih =>
      intro page
      simp only [trendsAux]
      by_cases h1 : (pages page).isEmpty
      · simp [h1]
      · simp only [h1, if_false]
        by_cases h2 : (pages page).length < 100
        · simp [h2]
        · simp only [h2, if_false]
          exact Nat.succ_le_succ (ih (page + 1))

lemma findAux_snd_short (pages : Pages) (norm : Str) (p : Nat)
    (hp : (pages p).length < 50) :
    ∀ fuel page, page ≤ p → (findAux pages norm fuel page).snd ≤ p + 1 - page := by
  intro fuel
  induction fuel with
  | zero => intro page hpage; exact Nat.zero_le _
  | succ fuel ih =>
      intro page hpage
      by_cases h1 : (pages page).isEmpty
      · simp [findAux, h1]; omega
      · cases hf : (pages page).find? (matchesAddress norm) with
        | some it => simp [findAux, h1, hf]; omega
        | none =>
            by_cases h2 : (pages page).length < 50
            · simp [findAux, h1, hf, h2]; omega
            · have h3 : page + 1 ≤ p := by
                have hne : page ≠ p := fun h => h2 (h ▸ hp)
                omega
              have hrec := ih (page + 1) h3
              simp [findAux, h1, hf, h2]
              omega

lemma trendsAux_snd_short (pages : Pages) (norm : Str) (p : Nat)
    (hp : (pages p).length < 100) :
    ∀ fuel page, page ≤ p → (trendsAux pages norm fuel page).snd ≤ p + 1 - page := by
  intro fuel
  induction fuel with
  | zero => intro page hpage; exact Nat.zero_le _
  | succ fuel ih =>
      intro page hpage
      by_cases h1 : (pages page).isEmpty
      · simp [trendsAux, h1]; omega
      · by_cases h2 : (pages page).length < 100
        · simp [trendsAux, h1, h2]; omega
        · have h3 : page + 1 ≤ p := by
            have hne : page ≠ p := fun h => h2 (h ▸ hp)
            omega
          have hrec := ih (page + 1) h3
          simp [trendsAux, h1, h2]
          omega

lemma mem_scannedFindItems (pages : Pages) :
    ∀ fuel page it, it ∈ scannedFindItems pages fuel page → ∃ pg, it ∈ pages pg := by
  intro fuel
  induction fuel with
  | zero => intro page it h; cases h
  | succ fuel ih =>
      intro page it h
      by_cases h1 : (pages page).isEmpty
      · simp [scannedFindItems, h1] at h
      · by_cases h2 : (pages page).length < 50
        · exact ⟨page, by simpa [scannedFindItems, h1, h2] using h⟩
        · have h' : it ∈ pages page ∨ it ∈ scannedFindItems pages fuel (page + 1) := by
            simpa [scannedFindItems, h1, h2, List.mem_append] using h
          rcases h' with h' | h'
          · exact ⟨page, h'⟩
          · exact ih (page + 1) it h'

lemma isWsChar_asciiLower (c : Nat) : isWsChar (asciiLower c) = isWsChar c := by
  unfold asciiLower isWsChar
  by_cases h : 65 ≤ c ∧ c ≤ 90
  · rw [if_pos h]
    apply decide_eq_decide.mpr
    omega
  · rw [if_neg h]

lemma isWsChar_of_lowerEq {a b : Nat} (h : asciiLower a = asciiLower b) :
    isWsChar a = isWsChar b := by
  rw [← isWsChar_asciiLower a, ← isWsChar_asciiLower b, h]

lemma lowerStr_dropWhile {a b : Str} (h : lowerStr a = lowerStr b) :
    lowerStr (a.dropWhile isWsChar) = lowerStr (b.dropWhile isWsChar) := by
  induction a generalizing b with
  | nil =>
      have hb : b = [] := by simpa [lowerStr] using h.symm
      rw [hb]
  | cons x xs ih =>
      cases b with
      | nil => simp [lowerStr] at h
      | cons y ys =>
          simp only [lowerStr, List.map_cons, List.cons.injEq] at h
          obtain ⟨hxy, hxs⟩ := h
          by_cases hw : isWsChar x
          · have hwy : isWsChar y = true := by rw [← isWsChar_of_lowerEq hxy]; exact hw
            simp only [List.dropWhile_cons, hw, hwy, if_pos]
            exact ih hxs
          · have hwy : ¬ isWsChar y = true := by rw [← isWsChar_of_lowerEq hxy]; exact hw
            simp only [List.dropWhile_cons, hw, hwy, Bool.false_eq_true, if_false]
            simp only [lowerStr, List.map_cons, List.cons.injEq]
            exact ⟨hxy, hxs⟩

lemma lowerStr_trim {a b : Str} (h : lowerStr a = lowerStr b) :
    lowerStr (trim a) = lowerStr (trim b) := by
  unfold trim
  have h1 := lowerStr_dropWhile h
  have h2 : lowerStr (a.dropWhile isWsChar).reverse = lowerStr (b.dropWhile isWsChar).reverse := by
    simpa [lowerStr, List.map_reverse] using congrArg List.reverse h1
  have h3 := lowerStr_dropWhile h2
  simpa [lowerStr, List.map_reverse] using congrArg List.reverse h3

lemma all_ws_of_trim_eq_nil {s : Str} (h : trim s = []) :
    ∀ c ∈ s, isWsChar c = true := by
  unfold trim at h
  rw [List.reverse_eq_nil_iff] at h
  have h2 := List.dropWhile_eq_nil_iff.mp h
  have h3 : ∀ c ∈ s.dropWhile isWsChar, isWsChar c = true :=
    fun c hc => h2 c (List.mem_reverse.mpr hc)
  intro c hc
  rcases List.mem_append.mp
      ((List.takeWhile_append_dropWhile (p := isWsChar) (l := s)) ▸ hc) with h4 | h4
  · exact List.mem_takeWhile_imp h4
  · exact h3 c h4

lemma lowerStr_eq_self_of_ws {s : Str} (h : ∀ c ∈ s, isWsChar c = true) :
    lowerStr s = s := by
  induction s with
  | nil => rfl
  | cons x xs ih =>
      have hx := h x (List.mem_cons_self x xs)
      have hlow : asciiLower x = x := by
        unfold asciiLower
        have hnot : ¬ (65 ≤ x ∧ x ≤ 90) := by
          simp only [isWsChar, decide_eq_true_eq] at hx
          omega
        rw [if_neg hnot]
      simp only [lowerStr, List.map_cons, hlow, List.cons.injEq, true_and]
      exact ih (fun c hc => h c (List.mem_cons_of_mem _ hc))

lemma all_ws_of_lowerEq {a b : Str} (h : lowerStr a = lowerStr b)
    (hws : ∀ c ∈ a, isWsChar c = true) : ∀ c ∈ b, isWsChar c = true := by
  intro c hc
  have hm : asciiLower c ∈ lowerStr b := List.mem_map_of_mem _ hc
  rw [← h] at hm
  obtain ⟨c1, hc1, he⟩ := List.mem_map.mp hm
  rw [← isWsChar_of_lowerEq he]
  exact hws c1 hc1

lemma eq_of_lowerEq_of_trim_nil {a b : Str} (h : lowerStr a = lowerStr b)
    (ht : trim a = []) : a = b := by
  have hwa := all_ws_of_trim_eq_nil ht
  have hwb := all_ws_of_lowerEq h hwa
  calc a = lowerStr a := (lowerStr_eq_self_of_ws hwa).symm
    _ = lowerStr b := h
    _ = b := lowerStr_eq_self_of_ws hwb

lemma calculate_suburb_trends_eq (pages : Pages) (s : Str) (hs : s ≠ []) :
    calculate_suburb_trends pages s = trendsOfRows s (matchedSuburbRecords pages s) := by
  unfold calculate_suburb_trends matchedSuburbRecords fetchedTrendsItems
  rw [if_neg hs, if_neg hs, trendsAux_fst_eq]

/-- C3: should_continue is a pure function of the last history turn.  It
returns continue exactly when the last turn is a model message carrying at
least one tool call request, it only ever returns continue or end, and its
value is determined by the last turn alone, so the empty history, a tool
result and a plain model answer all map to end. -/
theorem shouldContinue_lastTurn :
    ∀ h : List Msg,
      (shouldContinue h = ofStr "continue" ↔
        ∃ c tcs, h.getLast? = some (Msg.ai c tcs) ∧ tcs ≠ []) ∧
      (shouldContinue h = ofStr "continue" ∨ shouldContinue h = ofStr "end") ∧
      (∀ h2 : List Msg, h.getLast? = h2.getLast? → shouldContinue h = shouldContinue h2) := by
  intro h
  have hne : (ofStr "end" : Str) ≠ ofStr "continue" := by decide
  refine ⟨?_, ?_, ?_⟩
  · cases hl : h.getLast? with
    | none => simp [shouldContinue, hl, hne]
    | some m =>
        cases m with
        | human c => simp [shouldContinue, hl, hne]
        | tool c i => simp [shouldContinue, hl, hne]
        | ai c tcs =>
            cases tcs with
            | nil => simp [shouldContinue, hl, hne]
            | cons t ts =>
                simp only [shouldContinue, hl, List.isEmpty_cons, Bool.false_eq_true,
                  if_false, true_iff]
                exact ⟨c, t :: ts, rfl, List.cons_ne_nil t ts⟩
  · unfold shouldContinue
    cases h.getLast? with
    | none => exact Or.inr rfl
    | some m =>
        cases m with
        | human c => exact Or.inr rfl
        | tool c i => exact Or.inr rfl
        | ai c tcs => by_cases he : tcs.isEmpty <;> simp [he]
  · intro h2 he
    unfold shouldContinue
    rw [he]

/-- C3 witness: a longer history with the same last turn routes the same
way as the singleton history, and a plain human last turn maps to end. -/
theorem shouldContinue_lastTurn_witness :
    ([Msg.tool (ofStr "null") (ofStr "1"), Msg.human (ofStr "hi")] : List Msg).getLast? =
      ([Msg.human (ofStr "hi")] : List Msg).getLast? ∧
    shouldContinue [Msg.tool (ofStr "null") (ofStr "1"), Msg.human (ofStr "hi")] =
      shouldContinue [Msg.human (ofStr "hi")] :=
  ⟨by decide, (shouldContinue_lastTurn _).2.2 _ (by decide)⟩

/-- C4: when the most recent model message requests several tool calls,
call_tool dispatches exactly the last entry of the tool call list.  The
whole result of the node is determined by that last entry: when its name is
registered the history is extended by the single tool turn built from that
entry, and when it is not, the single error turn built from that entry is
returned; the earlier entries are never dispatched and do not influence the
new turn.  The parameter runTool stands for adapter invocation plus
serialization and is applied only to the last entry. -/
theorem callTool_executes_only_lastCall :
    ∀ (runTool : Str → List (Str × Str) → Str) (pre : List Msg) (c : Str)
      (tcs : List ToolCallReq) (tc : ToolCallReq),
      tcs.getLast? = some tc →
      (registeredToolNames.contains tc.name = true →
        callTool runTool (pre ++ [Msg.ai c tcs]) =
          (pre ++ [Msg.ai c tcs]) ++
            [Msg.tool (runTool tc.name tc.args) (tc.id.getD [])]) ∧
      (registeredToolNames.contains tc.name = false →
        callTool runTool (pre ++ [Msg.ai c tcs]) =
          [Msg.tool (toolNotFoundContent tc.name) (tc.id.getD [])]) := by
  intro runTool pre c tcs tc hlast
  have hl : (pre ++ [Msg.ai c tcs]).getLast? = some (Msg.ai c tcs) :=
    List.getLast?_concat pre
  constructor
  · intro hreg
    simp only [callTool, hl, hlast, hreg, if_true]
  · intro hreg
    simp only [callTool, hl, hlast, hreg, Bool.false_eq_true, if_false]

/-- Requested tool calls used by the C4 witness: the first names one
registered tool, the last names the other. -/
def tcFirst : ToolCallReq :=
  { name := ofStr "get_property_details", args := [], id := some (ofStr "1") }

/-- Second requested tool call of the C4 witness. -/
def tcSecond : ToolCallReq :=
  { name := ofStr "get_suburb_trends", args := [], id := some (ofStr "2") }

/-- Serialization stub used by witnesses: returns the tool name as content. -/
def runToolEcho : Str → List (Str × Str) → Str := fun n _ => n

/-- C4 witness: with two requested calls, the appended tool turn is built
from the second (last) call, not from the first. -/
theorem callTool_executes_only_lastCall_witness :
    callTool runToolEcho ([Msg.human (ofStr "q")] ++ [Msg.ai [] [tcFirst, tcSecond]]) =
      ([Msg.human (ofStr "q")] ++ [Msg.ai [] [tcFirst, tcSecond]]) ++
        [Msg.tool (ofStr "get_suburb_trends") (ofStr "2")] :=
  (callTool_executes_only_lastCall runToolEcho [Msg.human (ofStr "q")] []
      [tcFirst, tcSecond] tcSecond (by decide)).1 (by decide)

/-- Requested tool call with an unregistered name, used for C1. -/
def tcBogus : ToolCallReq :=
  { name := ofStr "bogus", args := [], id := some (ofStr "call1") }

/-- Serialization stub that always returns the text null. -/
def runToolNull : Str → List (Str × Str) → Str := fun _ _ => ofStr "null"

/-- History whose last turn requests the unregistered tool bogus. -/
def historyBogus : List Msg :=
  [Msg.human (ofStr "hi"), Msg.ai (ofStr "") [tcBogus]]

/-- C1 counterexample: on an unregistered tool name, call_tool does produce
the error turn, but the new value of the tool_calls channel is the
singleton list holding only that turn; the prior turns are not preserved as
a prefix, refuting the appended-to-history part of the claim. -/
theorem callTool_unknownTool_replacesHistory_cex :
    callTool runToolNull historyBogus =
      [Msg.tool (toolNotFoundContent (ofStr "bogus")) (ofStr "call1")] ∧
    callTool runToolNull historyBogus ≠
      historyBogus ++ [Msg.tool (toolNotFoundContent (ofStr "bogus")) (ofStr "call1")] := by
  decide

/-- C1 (amended): when the tool name requested last by the most recent
model message matches no registered adapter, call_tool produces a
tool-result turn whose content is the structured error payload for that
name, correlated to the call identifier; this turn becomes the entire new
conversation history, replacing the prior turns, because the branch returns
only the error turn and the tool_calls channel has no append reducer; the
graph then continues to the model node rather than crashing. -/
theorem callTool_unknownTool_errorTurn :
    ∀ (runTool : Str → List (Str × Str) → Str) (pre : List Msg) (c : Str)
      (tcs : List ToolCallReq) (tc : ToolCallReq),
      tcs.getLast? = some tc →
      registeredToolNames.contains tc.name = false →
      callTool runTool (pre ++ [Msg.ai c tcs]) =
        [Msg.tool (toolNotFoundContent tc.name) (tc.id.getD [])] ∧
      actionNext = GraphNode.agent := by
  intro runTool pre c tcs tc hlast hreg
  exact ⟨(callTool_executes_only_lastCall runTool pre c tcs tc hlast).2 hreg, rfl⟩

/-- C1 witness: the concrete bogus request yields exactly the documented
error payload as the sole turn of the new history, and the graph keeps
running. -/
theorem callTool_unknownTool_errorTurn_witness :
    (callTool runToolNull ([Msg.human (ofStr "hi")] ++ [Msg.ai (ofStr "") [tcBogus]]) =
        [Msg.tool (toolNotFoundContent (ofStr "bogus")) (ofStr "call1")] ∧
      actionNext = GraphNode.agent) ∧
    toolNotFoundContent (ofStr "bogus") =
      ofStr "\x7b\"error\": \"Tool not found: bogus\"\x7d" :=
  ⟨callTool_unknownTool_errorTurn runToolNull [Msg.human (ofStr "hi")] (ofStr "")
      [tcBogus] tcBogus (by decide) (by decide), by decide⟩

/-- Listing for the scenario record of the spec: address 85 Turner St in
Abbotsford, price text 850,000 dollars, 3 bedrooms. -/
def itemTurner : ExternalItem :=
  { displayAddress := some (ofStr "85 Turner St")
    suburbField := some (ofStr "Abbotsford")
    displayPrice := some (ofStr "$850,000")
    bedrooms := some 3 }

/-- Single-listing dataset serving itemTurner on page 1. -/
def pagesTurner : Pages := fun p => if p = 1 then [itemTurner] else []

/-- C5 counterexample: the regex allows only one comma-or-point separator
per match, so the first match inside 1,200,000 dollars is 1,200 and the
parsed value is 1200.0, not the full numeric value 1200000.0 demanded by
the claim. -/
theorem parsePrice_multiSeparator_cex :
    parsePriceFromText (some (ofStr "$1,200,000")) = 1200 ∧
    parsePriceFromText (some (ofStr "$1,200,000")) ≠ 1200000 := by
  decide

/-- C5 (amended): price text is parsed by taking the first match of the
regex digits, one optional comma or point, digits, and removing commas
from it: amounts with a single thousands separator parse fully, so the
scenario text 850,000 dollars yields 850000.0 and the scenario record is
returned with price 850000.0, but amounts with two or more separators are
truncated at the second separator, so 1,200,000 dollars yields 1200.0. -/
theorem parsePrice_firstToken :
    parsePriceFromText (some (ofStr "$850,000")) = 850000 ∧
    parsePriceFromText (some (ofStr "$1,200,000")) = 1200 ∧
    find_property_by_address pagesTurner (ofStr "85 turner st") =
      some { address := ofStr "85 Turner St", suburb := ofStr "Abbotsford",
             bedrooms := 3, property_type := [], price := 850000,
             bathrooms := some 0, land_size := some 0, year_built := none } := by
  decide

/-- Listing with no price information at all, for C6. -/
def itemNoPrice : ExternalItem :=
  { displayAddress := some (ofStr "1 Fake St")
    suburbField := some (ofStr "Suburbia")
    bedrooms := some 2 }

/-- Single-listing dataset serving itemNoPrice on page 1. -/
def pagesNoPrice : Pages := fun p => if p = 1 then [itemNoPrice] else []

/-- Record that the no-price listing maps to: its price defaults to 0. -/
def propFake : Property :=
  { address := ofStr "1 Fake St", suburb := ofStr "Suburbia",
    bedrooms := 2, property_type := [], price := 0,
    bathrooms := some 0, land_size := some 0, year_built := none }

/-- C6 counterexample: a listing with no usable price is not excluded from
query results; it is returned by the address query with price 0.0,
refuting the exclusion part of the claim. -/
theorem unparseablePrice_record_returned_cex :
    itemNoPrice.displayPrice = none ∧
    find_property_by_address pagesNoPrice (ofStr "1 Fake St") = some propFake ∧
    propFake.price = 0 := by
  decide

lemma parseFloatToken_nonneg (s : Str) : 0 ≤ parseFloatToken s := by
  unfold parseFloatToken
  dsimp only
  split
  · exact add_nonneg (Nat.cast_nonneg _)
      (div_nonneg (Nat.cast_nonneg _) (le_of_lt (pow_pos (by norm_num) _)))
  · exact Nat.cast_nonneg _

lemma parsePriceFromText_nonneg (t : Option Str) : 0 ≤ parsePriceFromText t := by
  unfold parsePriceFromText
  split
  · exact le_refl 0
  · split
    · exact le_refl 0
    · split
      · exact le_refl 0
      · exact parseFloatToken_nonneg _

lemma rowToProperty_price (row : Row) (p : Property)
    (h : rowToProperty row = some p) : p.price = row.price := by
  unfold rowToProperty at h
  split at h
  · injection h with h
    rw [← h]
  · exact absurd h (by simp)

/-- C6 (amended): every record the Data Provider constructs has a finite
non-negative price, because the parser returns a non-negative rational and
defaults to 0.0, but a source listing without a usable price is NOT
excluded: its price becomes 0.0 and it can appear in query results, as the
counterexample shows. -/
theorem price_nonneg_not_excluded :
    (∀ item : ExternalItem, 0 ≤ (mapExternalProperty item).price) ∧
    (∀ (row : Row) (p : Property), rowToProperty row = some p → p.price = row.price) ∧
    (∀ (pages : Pages) (a : Str) (p : Property),
      find_property_by_address pages a = some p → 0 ≤ p.price) := by
  refine ⟨?_, rowToProperty_price, ?_⟩
  · intro item
    exact parsePriceFromText_nonneg item.displayPrice
  · intro pages a p h
    unfold find_property_by_address at h
    by_cases ha : a = []
    · simp [ha] at h
    · rw [if_neg ha, findAux_fst_eq] at h
      obtain ⟨it, hit, hp⟩ := Option.bind_eq_some.mp h
      rw [rowToProperty_price _ _ hp]
      exact parsePriceFromText_nonneg it.displayPrice

/-- C6 witness: the amended theorem applied to the concrete no-price
dataset, giving a returned record with non-negative (zero) price. -/
theorem price_nonneg_not_excluded_witness :
    find_property_by_address pagesNoPrice (ofStr "1 Fake St") = some propFake ∧
    0 ≤ propFake.price :=
  ⟨by decide,
   price_nonneg_not_excluded.2.2 pagesNoPrice (ofStr "1 Fake St") propFake (by decide)⟩

lemma rowToProperty_fields (row : Row) (p : Property)
    (h : rowToProperty row = some p) :
    row.address = some p.address ∧ row.suburb = some p.suburb ∧ row.price = p.price := by
  cases hA : row.address with
  | none => simp [rowToProperty, hA] at h
  | some a =>
      cases hS : row.suburb with
      | none => simp [rowToProperty, hA, hS] at h
      | some s =>
          cases hR : row.rooms with
          | none => simp [rowToProperty, hA, hS, hR] at h
          | some r =>
              simp only [rowToProperty, hA, hS, hR, Option.some.injEq] at h
              rw [← h]
              exact ⟨rfl, rfl, rfl⟩

/-- C7: find_property_by_address returns none on the empty query, returns
none whenever no listing of the dataset matches the stripped casefolded
query, and any returned record has a stripped casefolded address equal to
the stripped casefolded query (and non-empty), so the match is
case-insensitive and whitespace-trimmed on the full address string. -/
theorem findPropertyByAddress_matching :
    ∀ (pages : Pages) (a : Str),
      (a = [] → find_property_by_address pages a = none) ∧
      ((∀ pg it, it ∈ pages pg → matchesAddress (lowerStr (trim a)) it = false) →
        find_property_by_address pages a = none) ∧
      (∀ p : Property, find_property_by_address pages a = some p →
        lowerStr (trim p.address) = lowerStr (trim a) ∧ lowerStr (trim p.address) ≠ []) := by
  intro pages a
  refine ⟨?_, ?_, ?_⟩
  · intro ha
    simp [find_property_by_address, ha]
  · intro hnone
    unfold find_property_by_address
    by_cases ha : a = []
    · rw [if_pos ha]
    · rw [if_neg ha, findAux_fst_eq]
      have hfind : (scannedFindItems pages 10 1).find?
          (matchesAddress (lowerStr (trim a))) = none := by
        rw [List.find?_eq_none]
        intro it hit
        obtain ⟨pg, hpg⟩ := mem_scannedFindItems pages 10 1 it hit
        simp [hnone pg it hpg]
      rw [hfind]
      rfl
  · intro p h
    unfold find_property_by_address at h
    by_cases ha : a = []
    · simp [ha] at h
    · rw [if_neg ha, findAux_fst_eq] at h
      obtain ⟨it, hit, hp⟩ := Option.bind_eq_some.mp h
      have hmatch := List.find?_some hit
      obtain ⟨hAaddr, -, -⟩ := rowToProperty_fields _ _ hp
      simp only [matchesAddress, hAaddr, Option.getD_some, Bool.and_eq_true,
        Bool.not_eq_true', beq_iff_eq] at hmatch
      obtain ⟨hne, heq⟩ := hmatch
      refine ⟨heq, ?_⟩
      intro hnil
      rw [hnil] at hne
      simp at hne

/-- C7 witness: the no-match conjunct applied to the empty dataset. -/
theorem findPropertyByAddress_matching_witness :
    find_property_by_address (fun _ => []) (ofStr "nowhere") = none :=
  (findPropertyByAddress_matching (fun _ => []) (ofStr "nowhere")).2.1
    (fun _ it hit => absurd hit (List.not_mem_nil it))

/-- C8: every query fetches at most 10 pages, a page shorter than the page
size (50 for the address query, 100 for the trends query) bounds the number
of fetched pages by its own page number so the loop stops early, and the
address query returns exactly the first listing, in page-then-item order
over the scanned prefix, whose mapped address matches the normalized query,
passed through record validation. -/
theorem provider_paging_bounds :
    ∀ (pagesF pagesT : Pages) (a s : Str),
      findPagesFetched pagesF a ≤ 10 ∧
      trendsPagesFetched pagesT s ≤ 10 ∧
      (∀ p, 1 ≤ p → (pagesF p).length < 50 → findPagesFetched pagesF a ≤ p) ∧
      (∀ p, 1 ≤ p → (pagesT p).length < 100 → trendsPagesFetched pagesT s ≤ p) ∧
      (a ≠ [] →
        find_property_by_address pagesF a =
          ((scannedFindItems pagesF 10 1).find? (matchesAddress (lowerStr (trim a)))).bind
            (fun it => rowToProperty (mapExternalProperty it))) := by
  intro pagesF pagesT a s
  refine ⟨?_, ?_, ?_, ?_, ?_⟩
  · unfold findPagesFetched
    by_cases ha : a = []
    · simp [ha]
    · rw [if_neg ha]
      exact findAux_snd_le pagesF (lowerStr (trim a)) 10 1
  · unfold trendsPagesFetched
    by_cases hs : s = []
    · simp [hs]
    · rw [if_neg hs]
      exact trendsAux_snd_le pagesT (lowerStr (trim s)) 10 1
  · intro p hp hshort
    unfold findPagesFetched
    by_cases ha : a = []
    · rw [if_pos ha]
      omega
    · rw [if_neg ha]
      have := findAux_snd_short pagesF (lowerStr (trim a)) p hshort 10 1 hp
      omega
  · intro p hp hshort
    unfold trendsPagesFetched
    by_cases hs : s = []
    · rw [if_pos hs]
      omega
    · rw [if_neg hs]
      have := trendsAux_snd_short pagesT (lowerStr (trim s)) p hshort 10 1 hp
      omega
  · intro ha
    unfold find_property_by_address
    rw [if_neg ha, findAux_fst_eq]

/-- C8 witness: on a dataset whose first page is already shorter than the
page size, both queries fetch at most one page. -/
theorem provider_paging_bounds_witness :
    (1 : Nat) ≤ 1 ∧ ((fun _ => ([] : List ExternalItem)) 1).length < 50 ∧
    ((fun _ => ([] : List ExternalItem)) 1).length < 100 ∧
    findPagesFetched (fun _ => []) (ofStr "x") ≤ 1 ∧
    trendsPagesFetched (fun _ => []) (ofStr "Abbotsford") ≤ 1 :=
  ⟨by decide, by decide, by decide,
   (provider_paging_bounds (fun _ => []) (fun _ => [])
      (ofStr "x") (ofStr "Abbotsford")).2.2.1 1 (by decide) (by decide),
   (provider_paging_bounds (fun _ => []) (fun _ => [])
      (ofStr "x") (ofStr "Abbotsford")).2.2.2.1 1 (by decide) (by decide)⟩

/-- C2: over the listings a trends call fetches, with the match normalized
the way the code normalizes it (record suburb casefolded, query stripped
and casefolded), a non-empty matched set yields a result whose
property_count is exactly the matched count and whose median_price is the
statistical median (medianQ) of exactly the matched prices, and an empty
matched set yields none.  The empty query fetches nothing, so its matched
set is empty and it returns none. -/
theorem calculateSuburbTrends_count_median :
    ∀ (pages : Pages) (s : Str),
      (matchedSuburbRecords pages s ≠ [] →
        ∃ t, calculate_suburb_trends pages s = some t ∧
          t.property_count = (matchedSuburbRecords pages s).length ∧
          t.median_price = medianQ ((matchedSuburbRecords pages s).map Row.price)) ∧
      (matchedSuburbRecords pages s = [] →
        calculate_suburb_trends pages s = none) := by
  intro pages s
  constructor
  · intro hM
    by_cases hs : s = []
    · exact absurd (by simp [matchedSuburbRecords, fetchedTrendsItems, hs]) hM
    · rw [calculate_suburb_trends_eq pages s hs]
      cases hMr : matchedSuburbRecords pages s with
      | nil => exact absurd hMr hM
      | cons r0 rs => exact ⟨_, rfl, rfl, rfl⟩
  · intro hM
    by_cases hs : s = []
    · simp [calculate_suburb_trends, hs]
    · rw [calculate_suburb_trends_eq pages s hs, hM]
      rfl

/-- First Abbotsford listing of the scenario dataset. -/
def itemAbb1 : ExternalItem :=
  { displayAddress := some (ofStr "1 High St")
    suburbField := some (ofStr "Abbotsford")
    displayPrice := some (ofStr "$500,000")
    bedrooms := some 2 }

/-- Second Abbotsford listing of the scenario dataset. -/
def itemAbb2 : ExternalItem :=
  { displayAddress := some (ofStr "2 High St")
    suburbField := some (ofStr "Abbotsford")
    displayPrice := some (ofStr "$700,000")
    bedrooms := some 3 }

/-- Scenario dataset: two Abbotsford listings priced 500000 and 700000. -/
def pagesAbb : Pages := fun p => if p = 1 then [itemAbb1, itemAbb2] else []

/-- C2 witness: the spec scenario.  Two Abbotsford records priced 500000
and 700000 match, the theorem applies, the matched count is 2 and the
median of the matched prices is 600000; the even and odd median fixtures
check the statistical median definition. -/
theorem calculateSuburbTrends_count_median_witness :
    matchedSuburbRecords pagesAbb (ofStr "Abbotsford") ≠ [] ∧
    (∃ t, calculate_suburb_trends pagesAbb (ofStr "Abbotsford") = some t ∧
      t.property_count = (matchedSuburbRecords pagesAbb (ofStr "Abbotsford")).length ∧
      t.median_price =
        medianQ ((matchedSuburbRecords pagesAbb (ofStr "Abbotsford")).map Row.price)) ∧
    (matchedSuburbRecords pagesAbb (ofStr "Abbotsford")).length = 2 ∧
    medianQ ((matchedSuburbRecords pagesAbb (ofStr "Abbotsford")).map Row.price) = 600000 ∧
    medianQ [7, 1, 3, 5] = 4 ∧
    medianQ [7, 1, 9, 3, 5] = 5 := by
  refine ⟨by decide,
    (calculateSuburbTrends_count_median pagesAbb (ofStr "Abbotsford")).1 (by decide),
    by decide, ?_, ?_, ?_⟩
  · have hM : (matchedSuburbRecords pagesAbb (ofStr "Abbotsford")).map Row.price =
        [500000, 700000] := by decide
    rw [hM]
    norm_num [medianQ, sortQ, insertSorted]
  · norm_num [medianQ, sortQ, insertSorted]
  · norm_num [medianQ, sortQ, insertSorted]

/-- C9: two suburb queries with the same casefolding, which is exactly what
it means to differ only in letter casing, produce identical results on
every dataset. -/
theorem calculateSuburbTrends_caseInsensitive :
    ∀ (pages : Pages) (s1 s2 : Str), lowerStr s1 = lowerStr s2 →
      calculate_suburb_trends pages s1 = calculate_suburb_trends pages s2 := by
  intro pages s1 s2 h
  by_cases h1 : s1 = []
  · have h2 : s2 = [] := by
      rw [h1] at h
      exact List.map_eq_nil_iff.mp h.symm
    rw [h1, h2]
  · have h2 : s2 ≠ [] := by
      intro hb
      apply h1
      rw [hb] at h
      exact List.map_eq_nil_iff.mp h
    have hn := lowerStr_trim h
    unfold calculate_suburb_trends
    rw [if_neg h1, if_neg h2, hn]
    cases hrows : (trendsAux pages (lowerStr (trim s2)) 10 1).fst with
    | nil => rfl
    | cons r0 rs =>
        have hmem : r0 ∈ (trendsAux pages (lowerStr (trim s2)) 10 1).fst := by
          rw [hrows]
          exact List.mem_cons_self r0 rs
        rw [trendsAux_fst_eq pages (lowerStr (trim s2)) 10 1] at hmem
        have hpred := (List.mem_filter.mp hmem).2
        unfold trendsOfRows
        cases hsub : r0.suburb with
        | none =>
            simp only [hsub, if_neg (show ¬(ofStr "None" : Str) = [] from by decide)]
        | some sc =>
            cases sc with
            | cons c cs =>
                simp only [hsub, if_neg (show ¬(c :: cs : Str) = [] from List.cons_ne_nil c cs)]
            | nil =>
                have hnorm : lowerStr (trim s2) = [] := by
                  unfold matchesSuburbRow at hpred
                  rw [hsub] at hpred
                  have h0 : lowerStr ([] : Str) = lowerStr (trim s2) := by
                    simpa using hpred
                  simpa [lowerStr] using h0.symm
                have htrim2 : trim s2 = [] := List.map_eq_nil_iff.mp hnorm
                have hs21 : s2 = s1 := eq_of_lowerEq_of_trim_nil h.symm htrim2
                rw [hs21]

/-- C9 witness: the upper-cased and mixed-case spellings of Abbotsford have
the same casefolding, so the theorem yields identical results on the
scenario dataset. -/
theorem calculateSuburbTrends_caseInsensitive_witness :
    lowerStr (ofStr "ABBOTSFORD") = lowerStr (ofStr "Abbotsford") ∧
    calculate_suburb_trends pagesAbb (ofStr "ABBOTSFORD") =
      calculate_suburb_trends pagesAbb (ofStr "Abbotsford") :=
  ⟨by decide,
   calculateSuburbTrends_caseInsensitive pagesAbb
     (ofStr "ABBOTSFORD") (ofStr "Abbotsford") (by decide)⟩

/-- C10: a non-empty all-whitespace suburb query is not rejected by the
emptiness guard; it normalizes to the empty string, a mapped row matches
that normalized query exactly when its suburb field is missing or empty,
and when at least one such listing is fetched the call returns the
aggregates computed over exactly those rows rather than none. -/
theorem calculateSuburbTrends_whitespaceQuery :
    ∀ (pages : Pages) (s : Str), s ≠ [] → (∀ c ∈ s, isWsChar c = true) →
      lowerStr (trim s) = [] ∧
      (∀ r : Row, matchesSuburbRow (lowerStr (trim s)) r = true ↔
        (r.suburb = none ∨ r.suburb = some [])) ∧
      (matchedSuburbRecords pages s ≠ [] →
        ∃ t, calculate_suburb_trends pages s = some t ∧
          t.property_count = (matchedSuburbRecords pages s).length ∧
          t.median_price = medianQ ((matchedSuburbRecords pages s).map Row.price) ∧
          t.average_land_size = meanQ ((matchedSuburbRecords pages s).map Row.landsize)) := by
  intro pages s hne hws
  have hd : s.dropWhile isWsChar = [] := List.dropWhile_eq_nil_iff.mpr hws
  have htrim : trim s = [] := by
    unfold trim
    rw [hd]
    rfl
  have hnorm : lowerStr (trim s) = [] := by
    rw [htrim]
    rfl
  refine ⟨hnorm, ?_, ?_⟩
  · intro r
    unfold matchesSuburbRow
    rw [hnorm]
    cases hsub : r.suburb with
    | none => simp [lowerStr]
    | some sc =>
        cases sc with
        | nil => simp [lowerStr]
        | cons c cs => simp [lowerStr]
  · intro hM
    rw [calculate_suburb_trends_eq pages s hne]
    cases hMr : matchedSuburbRecords pages s with
    | nil => exact absurd hMr hM
    | cons r0 rs => exact ⟨_, rfl, rfl, rfl, rfl⟩

/-- Listing with no suburb key at all, for the C10 witness. -/
def itemNoSuburb : ExternalItem :=
  { displayAddress := some (ofStr "2 Nowhere Rd")
    displayPrice := some (ofStr "$400,000")
    bedrooms := some 1 }

/-- Dataset serving the suburb-less listing on page 1. -/
def pagesNoSuburb : Pages := fun p => if p = 1 then [itemNoSuburb] else []

/-- C10 witness: the single-space query on a dataset holding one listing
without a suburb; the query normalizes to the empty string, the listing
matches, and the call returns aggregated trends rather than none. -/
theorem calculateSuburbTrends_whitespaceQuery_witness :
    (ofStr " " ≠ ([] : Str)) ∧
    (∀ c ∈ ofStr " ", isWsChar c = true) ∧
    matchedSuburbRecords pagesNoSuburb (ofStr " ") ≠ [] ∧
    lowerStr (trim (ofStr " ")) = [] ∧
    (∃ t, calculate_suburb_trends pagesNoSuburb (ofStr " ") = some t ∧
      t.property_count = (matchedSuburbRecords pagesNoSuburb (ofStr " ")).length ∧
      t.median_price = medianQ ((matchedSuburbRecords pagesNoSuburb (ofStr " ")).map Row.price) ∧
      t.average_land_size =
        meanQ ((matchedSuburbRecords pagesNoSuburb (ofStr " ")).map Row.landsize)) :=
  ⟨by decide, by decide, by decide,
   (calculateSuburbTrends_whitespaceQuery pagesNoSuburb (ofStr " ")
      (by decide) (by decide)).1,
   (calculateSuburbTrends_whitespaceQuery pagesNoSuburb (ofStr " ")
      (by decide) (by decide)).2.2 (by decide)⟩
